import Mathlib

/-!
Verification development for the `run-llama/ts-agents` tutorial repository.

The repository consists of thin composition scripts around the LlamaIndex.TS
library.  The implementer-owned logic embedded here is:

* the `sumNumbers` tool function (`src/1_agent/agent.mjs`,
  `src/3_rag_and_tools/agent.ts`, the Qdrant script), which is the JavaScript
  arrow function `({a, b}) => ${a + b}` (a template literal around JS `+`);
* the tool descriptors passed to `FunctionTool.from` / `QueryEngineTool`
  (name, description, optional JSON parameter schema);
* the Qdrant script's flat-file parsing cache: load `cache.json` (absent file
  is caught and treated as the empty cache), skip `reader.loadData` for paths
  already marked `true`, mark newly parsed paths, write the map back once,
  then build the vector index and run the agent chats, with
  `main().catch(console.error)` at the top level.

External collaborators (LlamaParse, the vector store, the model provider) are
modelled as abstract parameters: a JSON parse function, a JSON serialize
function, and success flags for `loadData`, index construction and agent
invocation.  Runs are modelled as an event trace plus the resulting state of
the cache file and an error flag.
-/

/-! ### The parsing cache

`cache` in the Qdrant script is a plain JavaScript object mapping file-path
strings to booleans, mutated by `cache[file] = true` and queried by
`!cache[file]`.  We model it as an insertion-ordered association list, which
matches JS object semantics for string keys: assignment overwrites an
existing key in place, otherwise appends. -/

abbrev Cache := List (String × Bool)

/-- `cache[key]` as a lookup: the value at the first matching key, if any. -/
def cacheLookup : Cache → String → Option Bool
  | [], _ => none
  | (k, v) :: rest, key => if k = key then some v else cacheLookup rest key

/-- `cache[key] = v`: overwrite the existing entry in place, else append. -/
def cacheInsert : Cache → String → Bool → Cache
  | [], key, v => [(key, v)]
  | (k, w) :: rest, key, v =>
    if k = key then (k, v) :: rest else (k, w) :: cacheInsert rest key v

/-- JavaScript truthiness of the lookup result `cache[file]`: an absent key
gives `undefined` (falsy) and a boolean value is truthy exactly when `true`.
The guard in the script is `!cache[file]`, the negation of this. -/
def jsTruthy : Option Bool → Bool
  | some true => true
  | _ => false

/-! ### The `sumNumbers` tool function

`const sumNumbers = ({ a, b }) => { return `${a + b}`; }`.  The argument
values come from the agent as JSON, so they are numbers or strings.  JS
numbers are IEEE doubles; we model them as rationals, which is exact for
every value appearing here (small integers and `2012.5`, all exactly
representable, with no rounding in their sums). -/

inductive JSVal where
  | num : ℚ → JSVal
  | str : String → JSVal
deriving DecidableEq, Repr

/-- ECMAScript `ToString` on a (finite-decimal) number: integers print with
no point; otherwise the shortest terminating decimal expansion is printed,
found by scaling by the least power of 10 clearing the denominator.  (The
fallback for a non-terminating expansion is never hit by the values this
repository manipulates.) -/
def jsNumToString (q : ℚ) : String :=
  if q.den = 1 then toString q.num
  else
    match (List.range 18).find? (fun k => (10 ^ k) % q.den == 0) with
    | none => toString q.num ++ "/" ++ toString q.den
    | some k =>
      let sgn := if q.num < 0 then "-" else ""
      let m := q.num.natAbs * (10 ^ k) / q.den
      let ip := m / 10 ^ k
      let fp := m % 10 ^ k
      let fpStr := toString fp
      let pad := String.mk (List.replicate (k - fpStr.length) '0')
      sgn ++ toString ip ++ "." ++ pad ++ fpStr

/-- JS string coercion of a value (what a template literal applies). -/
def jsToString : JSVal → String
  | .num q => jsNumToString q
  | .str s => s

/-- The JS binary `+`: numeric addition on two numbers; if either operand is
a string, string concatenation of the coerced operands. -/
def jsAdd : JSVal → JSVal → JSVal
  | .num x, .num y => .num (x + y)
  | a, b => .str (jsToString a ++ jsToString b)

/-- `sumNumbers` from the scripts: `({a, b}) => ${a + b}` — JS `+` on the
two fields, then template-literal string coercion of the result. -/
def sumNumbers (a b : JSVal) : String :=
  jsToString (jsAdd a b)

/-- The rational number `5212.5` as an explicit fraction, used to evaluate
the decimal case of `jsNumToString`. -/
def q52125 : ℚ := ⟨10425, 2, by decide, by decide⟩

/-! ### Tool descriptors

`FunctionTool.from(fn, {name, description, parameters})` and
`new QueryEngineTool({queryEngine, metadata: {name, description}})`.  The
parameter schema is a JSON-schema object: a `properties` map from parameter
name to type/description, and a `required` list of names.  Query-engine
tools carry no parameter schema. -/

structure ParamDef where
  type : String
  description : String
deriving DecidableEq, Repr

structure ParamSchema where
  properties : List (String × ParamDef)
  required : List String
deriving DecidableEq, Repr

structure ToolDescriptor where
  name : String
  description : String
  parameters : Option ParamSchema
deriving DecidableEq, Repr

/-- The parameter schema given for `sumNumbers`; identical text appears in
`src/1_agent/agent.mjs`, the local-model script, `src/3_rag_and_tools/agent.ts`
and the Qdrant script. -/
def sumNumbersSchema : ParamSchema :=
  { properties :=
      [ ("a", { type := "number", description := "First number to sum" }),
        ("b", { type := "number", description := "Second number to sum" }) ],
    required := ["a", "b"] }

/-- `FunctionTool.from(sumNumbers, …)` in `src/1_agent/agent.mjs`. -/
def sumNumbersTool_agent : ToolDescriptor :=
  { name := "sumNumbers",
    description := "Use this function to sum two numbers",
    parameters := some sumNumbersSchema }

/-- `FunctionTool.from(sumNumbers, …)` in the local-model (Ollama) script. -/
def sumNumbersTool_local : ToolDescriptor :=
  { name := "sumNumbers",
    description := "Use this function to sum two numbers",
    parameters := some sumNumbersSchema }

/-- `FunctionTool.from(sumNumbers, …)` in `src/3_rag_and_tools/agent.ts`. -/
def sumNumbersTool_ragAndTools : ToolDescriptor :=
  { name := "sumNumbers",
    description := "Use this function to sum two numbers",
    parameters := some sumNumbersSchema }

/-- `FunctionTool.from(sumNumbers, …)` in the Qdrant script. -/
def sumNumbersTool_qdrant : ToolDescriptor :=
  { name := "sumNumbers",
    description := "Use this function to sum two numbers",
    parameters := some sumNumbersSchema }

/-- The budget `QueryEngineTool` in `src/2_agentic_rag/agent.ts`; no
parameter schema is declared. -/
def budgetTool_agenticRag : ToolDescriptor :=
  { name := "san_francisco_budget_tool",
    description := "This tool can answer detailed questions about the individual components of the budget of San Francisco in 2023-2024.",
    parameters := none }

/-- The budget `QueryEngineTool` in `src/3_rag_and_tools/agent.ts`. -/
def budgetTool_ragAndTools : ToolDescriptor :=
  { name := "san_francisco_budget_tool",
    description := "This tool can answer detailed questions about the individual components of the budget of San Francisco in 2023-2024.",
    parameters := none }

/-- The budget `QueryEngineTool` in the Qdrant script. -/
def budgetTool_qdrant : ToolDescriptor :=
  { name := "san_francisco_budget_tool",
    description := "This tool can answer detailed questions about the individual components of the budget of San Francisco in 2023-2024.",
    parameters := none }

/-- Every tool descriptor constructed anywhere in the repository. -/
def repoToolDescriptors : List ToolDescriptor :=
  [ sumNumbersTool_agent, sumNumbersTool_local,
    budgetTool_agenticRag,
    budgetTool_ragAndTools, sumNumbersTool_ragAndTools,
    budgetTool_qdrant, sumNumbersTool_qdrant ]

/-- A tool descriptor's `required` names are all declared in `properties`
(vacuously satisfied by a tool without a parameter schema). -/
def requiredSubsetOfProperties (t : ToolDescriptor) : Bool :=
  match t.parameters with
  | none => true
  | some ps => ps.required.all (fun r => (ps.properties.map Prod.fst).contains r)

/-! ### The Qdrant script's ingestion step and run structure

`main` in the Qdrant script: load `cache.json` (an absent file is caught,
logging "No cache found", and leaves the cache empty; `JSON.parse` of a
present file may throw), loop over `filesToParse` issuing
`reader.loadData(file)` only when `!cache[file]`, write the cache back once,
build the vector index, and issue the agent chats;
`main().catch(console.error)` wraps the whole run.

External effects are recorded as events; external fallibility is abstracted
into a JSON parse function (`none` = `JSON.parse` throws), a serializer, and
success flags for each `loadData` call, the index construction and the agent
chats.  A failure makes the rest of `main` unreachable: the error propagates
to `main().catch`. -/

inductive Ev where
  | logNoCache : Ev
  | parseCall : String → Ev
  | cacheWrite : String → Ev
  | indexBuild : Ev
  | agentChat : Ev
  | logError : Ev
deriving DecidableEq, Repr

def isCacheWrite : Ev → Bool
  | .cacheWrite _ => true
  | _ => false

def isParseCall : Ev → Bool
  | .parseCall _ => true
  | _ => false

def isIndexBuild : Ev → Bool
  | .indexBuild => true
  | _ => false

/-- Loading the cache: an absent file is the caught `fs.access` failure and
yields the empty map; a present file is read and `JSON.parse`d, which either
yields the stored map or throws (`.error`). -/
def loadCache (parseJson : String → Option Cache) : Option String → Except Unit Cache
  | none => Except.ok []
  | some s =>
    match parseJson s with
    | some c => Except.ok c
    | none => Except.error ()

/-- The `for (let file of filesToParse)` loop: skip `file` when
`cache[file]` is truthy; otherwise issue `reader.loadData(file)` — which
may throw, aborting the loop — and then set `cache[file] = true`.  Returns
the final cache and the paths for which a `loadData` call was issued, or,
on failure, the paths issued up to and including the failing one. -/
def processFilesE (loadOk : String → Bool) :
    Cache → List String → Except (List String) (Cache × List String)
  | c, [] => Except.ok (c, [])
  | c, f :: rest =>
    if jsTruthy (cacheLookup c f) then
      processFilesE loadOk c rest
    else
      if loadOk f then
        match processFilesE loadOk (cacheInsert c f true) rest with
        | Except.ok (c2, ps) => Except.ok (c2, f :: ps)
        | Except.error ps => Except.error (f :: ps)
      else Except.error [f]

/-- The `loadData` calls a loop outcome issued, successful or not. -/
def issuedCalls : Except (List String) (Cache × List String) → List String
  | Except.ok (_, ps) => ps
  | Except.error ps => ps

/-- Outcome of one run of the script's `main`: the event trace, the final
contents of the cache file, and whether an error propagated out of `main`. -/
structure RunOutcome where
  events : List Ev
  fsAfter : Option String
  err : Bool
deriving DecidableEq, Repr

/-- The part of `main` after the cache map has been obtained: the parsing
loop, the single `fs.writeFile` of the serialized cache, the vector-index
construction, and the agent chats.  `evs0` holds the events of the cache
load; `fs0` the cache-file contents on disk at this point. -/
def afterCache (serializeJson : Cache → String) (loadOk : String → Bool)
    (indexOk agentOk : Bool) (fs0 : Option String) (evs0 : List Ev)
    (c0 : Cache) (files : List String) : RunOutcome :=
  match processFilesE loadOk c0 files with
  | Except.error ps => ⟨evs0 ++ ps.map Ev.parseCall, fs0, true⟩
  | Except.ok (c1, ps) =>
    let written := serializeJson c1
    let evs1 := evs0 ++ ps.map Ev.parseCall ++ [Ev.cacheWrite written]
    if indexOk then
      if agentOk then
        ⟨evs1 ++ [Ev.indexBuild, Ev.agentChat], some written, false⟩
      else
        ⟨evs1 ++ [Ev.indexBuild, Ev.agentChat], some written, true⟩
    else
      ⟨evs1 ++ [Ev.indexBuild], some written, true⟩

/-- One run of the Qdrant script's `main`: the `fs.access` / `JSON.parse`
cache load followed by `afterCache`.  A `JSON.parse` throw ends the run at
once with the file untouched and no further event. -/
def mainRun (parseJson : String → Option Cache) (serializeJson : Cache → String)
    (loadOk : String → Bool) (indexOk agentOk : Bool)
    (fs0 : Option String) (files : List String) : RunOutcome :=
  match fs0 with
  | none =>
    afterCache serializeJson loadOk indexOk agentOk none [Ev.logNoCache] [] files
  | some s =>
    match parseJson s with
    | none => ⟨[], some s, true⟩
    | some c0 => afterCache serializeJson loadOk indexOk agentOk (some s) [] c0 files

/-- `main().catch(console.error)`: an error propagating out of `main` is
logged at top level, after which the process ends. -/
def runScript (parseJson : String → Option Cache) (serializeJson : Cache → String)
    (loadOk : String → Bool) (indexOk agentOk : Bool)
    (fs0 : Option String) (files : List String) : List Ev :=
  let out := mainRun parseJson serializeJson loadOk indexOk agentOk fs0 files
  if out.err then out.events ++ [Ev.logError] else out.events

/-! ### Lemmas about the cache and the parsing loop -/

theorem cacheLookup_insert (c : Cache) (key : String) (v : Bool) (k : String) :
    cacheLookup (cacheInsert c key v) k
      = if key = k then some v else cacheLookup c k := by
  induction c with
  | nil =>
    by_cases h : key = k <;> simp [cacheInsert, cacheLookup, h]
  | cons a rest ih =>
    obtain ⟨a1, a2⟩ := a
    by_cases h1 : a1 = key
    · subst h1
      by_cases h2 : a1 = k <;> simp [cacheInsert, cacheLookup, h2]
    · by_cases h2 : a1 = k
      · subst h2
        have hk : ¬ key = a1 := fun h => h1 h.symm
        simp [cacheInsert, cacheLookup, h1, hk]
      · simp [cacheInsert, cacheLookup, h1, h2, ih]

/-- Characterization of a completed parsing loop: afterwards a path looks up
to `true` exactly when it was parsed in this run, and every other path keeps
its original entry. -/
theorem processFilesE_ok_lookup (loadOk : String → Bool) (files : List String)
    (c c1 : Cache) (ps : List String)
    (h : processFilesE loadOk c files = Except.ok (c1, ps)) (k : String) :
    cacheLookup c1 k = if k ∈ ps then some true else cacheLookup c k := by
  induction files generalizing c c1 ps with
  | nil =>
    simp only [processFilesE, Except.ok.injEq, Prod.mk.injEq] at h
    obtain ⟨rfl, rfl⟩ := h
    simp
  | cons f rest ih =>
    by_cases ht : jsTruthy (cacheLookup c f)
    · rw [processFilesE, if_pos ht] at h
      exact ih c c1 ps h
    · rw [processFilesE, if_neg ht] at h
      by_cases hl : loadOk f
      · rw [if_pos hl] at h
        cases hrec : processFilesE loadOk (cacheInsert c f true) rest with
        | ok p =>
          obtain ⟨c2, ps2⟩ := p
          rw [hrec] at h
          simp only [Except.ok.injEq, Prod.mk.injEq] at h
          obtain ⟨rfl, rfl⟩ := h
          have hih := ih (cacheInsert c f true) c2 ps2 hrec
          rw [cacheLookup_insert] at hih
          rw [hih]
          by_cases hmem : k ∈ ps2
          · simp [hmem, List.mem_cons]
          · by_cases hk : k = f
            · subst hk
              simp [hmem]
            · have hfk : ¬ f = k := fun hh => hk hh.symm
              simp [hmem, hk, hfk, List.mem_cons]
        | error ps3 =>
          rw [hrec] at h
          simp at h
      · rw [if_neg hl] at h
        simp at h

/-- A path already marked `true` is never passed to `loadData`, whether the
loop completes or aborts. -/
theorem processFilesE_true_not_issued (loadOk : String → Bool)
    (files : List String) (c : Cache) (f : String)
    (h : cacheLookup c f = some true) :
    f ∉ issuedCalls (processFilesE loadOk c files) := by
  induction files generalizing c with
  | nil =>
    simp [processFilesE, issuedCalls]
  | cons g rest ih =>
    by_cases ht : jsTruthy (cacheLookup c g)
    · rw [processFilesE, if_pos ht]
      exact ih c h
    · have hgf : g ≠ f := by
        intro hgf
        subst hgf
        rw [h] at ht
        simp [jsTruthy] at ht
      rw [processFilesE, if_neg ht]
      by_cases hl : loadOk g
      · rw [if_pos hl]
        have hins : cacheLookup (cacheInsert c g true) f = some true := by
          rw [cacheLookup_insert, if_neg hgf, h]
        have hrec := ih (cacheInsert c g true) hins
        cases hcase : processFilesE loadOk (cacheInsert c g true) rest with
        | ok p =>
          obtain ⟨c2, ps2⟩ := p
          rw [hcase] at hrec
          simp only [issuedCalls] at hrec ⊢
          intro hmem
          rcases List.mem_cons.mp hmem with h1 | h2
          · exact hgf h1.symm
          · exact hrec h2
        | error ps3 =>
          rw [hcase] at hrec
          simp only [issuedCalls] at hrec ⊢
          intro hmem
          rcases List.mem_cons.mp hmem with h1 | h2
          · exact hgf h1.symm
          · exact hrec h2
      · rw [if_neg hl]
        simp only [issuedCalls, List.mem_singleton]
        exact fun h1 => hgf h1.symm

/-- After a completed loop every path of the batch looks up to `true`. -/
theorem processFilesE_ok_mem_true (loadOk : String → Bool) (files : List String)
    (c c1 : Cache) (ps : List String)
    (h : processFilesE loadOk c files = Except.ok (c1, ps))
    (f : String) (hf : f ∈ files) :
    cacheLookup c1 f = some true := by
  induction files generalizing c c1 ps with
  | nil => simp at hf
  | cons g rest ih =>
    by_cases ht : jsTruthy (cacheLookup c g)
    · rw [processFilesE, if_pos ht] at h
      rcases List.mem_cons.mp hf with hfg | hfr
      · subst hfg
        have hg : cacheLookup c f = some true := by
          cases hc : cacheLookup c f with
          | none => rw [hc] at ht; simp [jsTruthy] at ht
          | some b =>
            cases b with
            | false => rw [hc] at ht; simp [jsTruthy] at ht
            | true => rfl
        rw [processFilesE_ok_lookup loadOk rest c c1 ps h f]
        by_cases hmem : f ∈ ps <;> simp [hmem, hg]
      · exact ih c c1 ps h hfr
    · rw [processFilesE, if_neg ht] at h
      by_cases hl : loadOk g
      · rw [if_pos hl] at h
        cases hrec : processFilesE loadOk (cacheInsert c g true) rest with
        | ok p =>
          obtain ⟨c2, ps2⟩ := p
          rw [hrec] at h
          simp only [Except.ok.injEq, Prod.mk.injEq] at h
          obtain ⟨rfl, rfl⟩ := h
          rcases List.mem_cons.mp hf with hfg | hfr
          · subst hfg
            rw [processFilesE_ok_lookup loadOk rest _ c2 ps2 hrec f]
            have hg : cacheLookup (cacheInsert c f true) f = some true := by
              rw [cacheLookup_insert, if_pos rfl]
            by_cases hmem : f ∈ ps2 <;> simp [hmem, hg]
          · exact ih (cacheInsert c g true) c2 ps2 hrec hfr
        | error ps3 =>
          rw [hrec] at h
          simp at h
      · rw [if_neg hl] at h
        simp at h

/-- With every `loadData` call succeeding, the loop always completes. -/
theorem processFilesE_allOk (c : Cache) (files : List String) :
    ∃ c1 ps, processFilesE (fun _ => true) c files = Except.ok (c1, ps) := by
  induction files generalizing c with
  | nil => exact ⟨c, [], rfl⟩
  | cons f rest ih =>
    by_cases ht : jsTruthy (cacheLookup c f)
    · obtain ⟨d, qs, hrec⟩ := ih c
      refine ⟨d, qs, ?_⟩
      rw [processFilesE, if_pos ht]
      exact hrec
    · obtain ⟨d, qs, hrec⟩ := ih (cacheInsert c f true)
      refine ⟨d, f :: qs, ?_⟩
      rw [processFilesE, if_neg ht, if_pos rfl, hrec]

/-- Events emitted while loading the cache: the caught `fs.access` failure
logs "No cache found"; a present file loads silently. -/
def cacheLoadEvents : Option String → List Ev
  | none => [Ev.logNoCache]
  | some _ => []

theorem mainRun_ok (parseJson : String → Option Cache) (serializeJson : Cache → String)
    (loadOk : String → Bool) (indexOk agentOk : Bool)
    (fs0 : Option String) (files : List String) (c0 : Cache)
    (hload : loadCache parseJson fs0 = Except.ok c0) :
    mainRun parseJson serializeJson loadOk indexOk agentOk fs0 files
      = afterCache serializeJson loadOk indexOk agentOk fs0
          (cacheLoadEvents fs0) c0 files := by
  cases fs0 with
  | none =>
    simp only [loadCache, Except.ok.injEq] at hload
    subst hload
    rfl
  | some s =>
    cases hp : parseJson s with
    | none =>
      rw [loadCache, hp] at hload
      simp at hload
    | some c =>
      rw [loadCache, hp] at hload
      simp only [Except.ok.injEq] at hload
      subst hload
      simp [mainRun, hp, cacheLoadEvents]

theorem countP_map_parseCall (p : Ev → Bool) (hp : ∀ s, p (Ev.parseCall s) = false)
    (ps : List String) : (ps.map Ev.parseCall).countP p = 0 := by
  induction ps with
  | nil => rfl
  | cons a l ih => simp [List.countP_cons, hp, ih]

/-! ### The claims -/

/-- Claim C1: after the batch of files has been processed, the cache map
written to disk is exactly the paths parsed in this run mapped to `true`,
together with the entries already present in the cache file at startup
(lookup-wise: a path parsed this run reads `true`, any other path reads its
startup entry). -/
theorem cache_written_is_union
    (parseJson : String → Option Cache) (serializeJson : Cache → String)
    (loadOk : String → Bool) (indexOk agentOk : Bool)
    (fs0 : Option String) (files : List String) (c0 c1 : Cache) (ps : List String)
    (hload : loadCache parseJson fs0 = Except.ok c0)
    (hproc : processFilesE loadOk c0 files = Except.ok (c1, ps)) :
    (mainRun parseJson serializeJson loadOk indexOk agentOk fs0 files).fsAfter
        = some (serializeJson c1)
    ∧ ∀ k, cacheLookup c1 k = if k ∈ ps then some true else cacheLookup c0 k := by
  constructor
  · rw [mainRun_ok parseJson serializeJson loadOk indexOk agentOk fs0 files c0 hload]
    unfold afterCache
    rw [hproc]
    cases indexOk <;> cases agentOk <;> rfl
  · exact fun k => processFilesE_ok_lookup loadOk files c0 c1 ps hproc k

theorem cache_written_is_union_witness :
    (mainRun (fun _ => none) (fun _ => "S") (fun _ => true) true true none
        ["../data/sf_budget_2023_2024.pdf"]).fsAfter = some "S"
    ∧ cacheLookup [("../data/sf_budget_2023_2024.pdf", true)]
          "../data/sf_budget_2023_2024.pdf"
        = if "../data/sf_budget_2023_2024.pdf" ∈ ["../data/sf_budget_2023_2024.pdf"]
          then some true else cacheLookup ([] : Cache) "../data/sf_budget_2023_2024.pdf" := by
  have h := cache_written_is_union (fun _ => none) (fun _ => "S") (fun _ => true)
    true true none ["../data/sf_budget_2023_2024.pdf"] []
    [("../data/sf_budget_2023_2024.pdf", true)] ["../data/sf_budget_2023_2024.pdf"]
    rfl rfl
  exact ⟨h.1, h.2 "../data/sf_budget_2023_2024.pdf"⟩

/-- Claim C3: a path present in the in-memory cache with value `true` when
the batch starts is never passed to `reader.loadData`: no parse call for it
is issued in the run. -/
theorem cached_true_never_reparsed
    (parseJson : String → Option Cache) (serializeJson : Cache → String)
    (loadOk : String → Bool) (indexOk agentOk : Bool)
    (fs0 : Option String) (files : List String) (c0 : Cache) (f : String)
    (hload : loadCache parseJson fs0 = Except.ok c0)
    (hf : cacheLookup c0 f = some true) :
    f ∉ issuedCalls (processFilesE loadOk c0 files)
    ∧ Ev.parseCall f
        ∉ (mainRun parseJson serializeJson loadOk indexOk agentOk fs0 files).events := by
  have hni := processFilesE_true_not_issued loadOk files c0 f hf
  refine ⟨hni, ?_⟩
  rw [mainRun_ok parseJson serializeJson loadOk indexOk agentOk fs0 files c0 hload]
  unfold afterCache
  cases hproc : processFilesE loadOk c0 files with
  | error ps =>
    rw [hproc] at hni
    simp only [issuedCalls] at hni
    cases fs0 <;> simp [cacheLoadEvents, List.mem_append, List.mem_map, hni]
  | ok p =>
    obtain ⟨c1, ps⟩ := p
    rw [hproc] at hni
    simp only [issuedCalls] at hni
    cases fs0 <;> cases indexOk <;> cases agentOk <;>
      simp [cacheLoadEvents, List.mem_append, List.mem_map, hni]

theorem cached_true_never_reparsed_witness :
    "../data/sf_budget_2023_2024.pdf"
        ∉ issuedCalls (processFilesE (fun _ => true)
            [("../data/sf_budget_2023_2024.pdf", true)]
            ["../data/sf_budget_2023_2024.pdf"])
    ∧ Ev.parseCall "../data/sf_budget_2023_2024.pdf"
        ∉ (mainRun (fun _ => some [("../data/sf_budget_2023_2024.pdf", true)])
            (fun _ => "S") (fun _ => true) true true (some "{}")
            ["../data/sf_budget_2023_2024.pdf"]).events :=
  cached_true_never_reparsed (fun _ => some [("../data/sf_budget_2023_2024.pdf", true)])
    (fun _ => "S") (fun _ => true) true true (some "{}")
    ["../data/sf_budget_2023_2024.pdf"]
    [("../data/sf_budget_2023_2024.pdf", true)] "../data/sf_budget_2023_2024.pdf"
    rfl rfl

/-- Claim C7: a run whose batch loop completes writes the updated cache back
exactly once — a single `cacheWrite` event, placed right after the parse
calls — and unconditionally, in particular also when `ps = []` (no file was
newly parsed). -/
theorem cache_write_once_at_end
    (parseJson : String → Option Cache) (serializeJson : Cache → String)
    (loadOk : String → Bool) (indexOk agentOk : Bool)
    (fs0 : Option String) (files : List String) (c0 c1 : Cache) (ps : List String)
    (hload : loadCache parseJson fs0 = Except.ok c0)
    (hproc : processFilesE loadOk c0 files = Except.ok (c1, ps)) :
    ∃ post,
      (mainRun parseJson serializeJson loadOk indexOk agentOk fs0 files).events
          = (cacheLoadEvents fs0 ++ ps.map Ev.parseCall)
              ++ Ev.cacheWrite (serializeJson c1) :: post
      ∧ (cacheLoadEvents fs0 ++ ps.map Ev.parseCall).countP isCacheWrite = 0
      ∧ post.countP isCacheWrite = 0
      ∧ post.countP isParseCall = 0 := by
  rw [mainRun_ok parseJson serializeJson loadOk indexOk agentOk fs0 files c0 hload]
  unfold afterCache
  rw [hproc]
  have hpre : (cacheLoadEvents fs0 ++ ps.map Ev.parseCall).countP isCacheWrite = 0 := by
    rw [List.countP_append, countP_map_parseCall isCacheWrite (fun _ => rfl) ps]
    cases fs0 <;> rfl
  cases indexOk <;> cases agentOk
  · exact ⟨[Ev.indexBuild], by simp [List.append_assoc], hpre, rfl, rfl⟩
  · exact ⟨[Ev.indexBuild], by simp [List.append_assoc], hpre, rfl, rfl⟩
  · exact ⟨[Ev.indexBuild, Ev.agentChat], by simp [List.append_assoc], hpre, rfl, rfl⟩
  · exact ⟨[Ev.indexBuild, Ev.agentChat], by simp [List.append_assoc], hpre, rfl, rfl⟩

theorem cache_write_once_at_end_witness :
    ∃ post,
      (mainRun (fun _ => some [("../data/sf_budget_2023_2024.pdf", true)])
          (fun _ => "S") (fun _ => true) true true (some "{}")
          ["../data/sf_budget_2023_2024.pdf"]).events
          = (cacheLoadEvents (some "{}")
              ++ ([] : List String).map Ev.parseCall)
              ++ Ev.cacheWrite "S" :: post
      ∧ (cacheLoadEvents (some "{}")
          ++ ([] : List String).map Ev.parseCall).countP isCacheWrite = 0
      ∧ post.countP isCacheWrite = 0
      ∧ post.countP isParseCall = 0 :=
  cache_write_once_at_end (fun _ => some [("../data/sf_budget_2023_2024.pdf", true)])
    (fun _ => "S") (fun _ => true) true true (some "{}")
    ["../data/sf_budget_2023_2024.pdf"]
    [("../data/sf_budget_2023_2024.pdf", true)] [("../data/sf_budget_2023_2024.pdf", true)] []
    rfl rfl

/-- Claim C10: the cache file is rewritten before the vector index is built:
in every run that reaches the write — whatever the fate of the index
construction and the agent chats — the file holds the updated map, every
file of the batch reads `true` in it, and the `cacheWrite` event precedes
any `indexBuild` event. -/
theorem cache_write_before_index
    (parseJson : String → Option Cache) (serializeJson : Cache → String)
    (loadOk : String → Bool) (indexOk agentOk : Bool)
    (fs0 : Option String) (files : List String) (c0 c1 : Cache) (ps : List String)
    (hload : loadCache parseJson fs0 = Except.ok c0)
    (hproc : processFilesE loadOk c0 files = Except.ok (c1, ps)) :
    (mainRun parseJson serializeJson loadOk indexOk agentOk fs0 files).fsAfter
        = some (serializeJson c1)
    ∧ (∀ f ∈ files, cacheLookup c1 f = some true)
    ∧ ∃ pre post,
        (mainRun parseJson serializeJson loadOk indexOk agentOk fs0 files).events
            = pre ++ Ev.cacheWrite (serializeJson c1) :: post
        ∧ pre.countP isIndexBuild = 0 := by
  refine ⟨?_, ?_, ?_⟩
  · rw [mainRun_ok parseJson serializeJson loadOk indexOk agentOk fs0 files c0 hload]
    unfold afterCache
    rw [hproc]
    cases indexOk <;> cases agentOk <;> rfl
  · exact fun f hf => processFilesE_ok_mem_true loadOk files c0 c1 ps hproc f hf
  · rw [mainRun_ok parseJson serializeJson loadOk indexOk agentOk fs0 files c0 hload]
    unfold afterCache
    rw [hproc]
    have hpre : (cacheLoadEvents fs0 ++ ps.map Ev.parseCall).countP isIndexBuild = 0 := by
      rw [List.countP_append, countP_map_parseCall isIndexBuild (fun _ => rfl) ps]
      cases fs0 <;> rfl
    cases indexOk <;> cases agentOk
    · exact ⟨cacheLoadEvents fs0 ++ ps.map Ev.parseCall, [Ev.indexBuild],
        by simp [List.append_assoc], hpre⟩
    · exact ⟨cacheLoadEvents fs0 ++ ps.map Ev.parseCall, [Ev.indexBuild],
        by simp [List.append_assoc], hpre⟩
    · exact ⟨cacheLoadEvents fs0 ++ ps.map Ev.parseCall, [Ev.indexBuild, Ev.agentChat],
        by simp [List.append_assoc], hpre⟩
    · exact ⟨cacheLoadEvents fs0 ++ ps.map Ev.parseCall, [Ev.indexBuild, Ev.agentChat],
        by simp [List.append_assoc], hpre⟩

theorem cache_write_before_index_witness :
    (mainRun (fun _ => none) (fun _ => "S") (fun _ => true) false false none
        ["../data/sf_budget_2023_2024.pdf"]).fsAfter = some "S"
    ∧ (∀ f ∈ ["../data/sf_budget_2023_2024.pdf"],
        cacheLookup [("../data/sf_budget_2023_2024.pdf", true)] f = some true)
    ∧ ∃ pre post,
        (mainRun (fun _ => none) (fun _ => "S") (fun _ => true) false false none
            ["../data/sf_budget_2023_2024.pdf"]).events
            = pre ++ Ev.cacheWrite "S" :: post
        ∧ pre.countP isIndexBuild = 0 :=
  cache_write_before_index (fun _ => none) (fun _ => "S") (fun _ => true) false false
    none ["../data/sf_budget_2023_2024.pdf"] []
    [("../data/sf_budget_2023_2024.pdf", true)] ["../data/sf_budget_2023_2024.pdf"]
    rfl rfl

/-- Claim C4: an absent cache file is the caught, normal case: the initial
in-memory map is empty, the run merely logs "No cache found" as its first
event, and (failures elsewhere aside) no error propagates. -/
theorem missing_cache_file_is_normal
    (parseJson : String → Option Cache) (serializeJson : Cache → String)
    (files : List String) :
    loadCache parseJson none = Except.ok []
    ∧ (mainRun parseJson serializeJson (fun _ => true) true true none files).err = false
    ∧ (mainRun parseJson serializeJson (fun _ => true) true true none files).events.head?
        = some Ev.logNoCache := by
  obtain ⟨c1, ps, hp⟩ := processFilesE_allOk [] files
  refine ⟨rfl, ?_, ?_⟩
  · show (afterCache serializeJson (fun _ => true) true true none [Ev.logNoCache] [] files).err
        = false
    unfold afterCache
    rw [hp]
    rfl
  · show (afterCache serializeJson (fun _ => true) true true none [Ev.logNoCache] [] files).events.head?
        = some Ev.logNoCache
    unfold afterCache
    rw [hp]
    simp

/-- Claim C9: a cache file that exists but fails `JSON.parse` makes the
ingestion run throw during cache loading: the error propagates, no parse
call is issued, nothing is written, and the cache file is unchanged. -/
theorem malformed_cache_aborts
    (parseJson : String → Option Cache) (serializeJson : Cache → String)
    (loadOk : String → Bool) (indexOk agentOk : Bool)
    (s : String) (files : List String)
    (h : parseJson s = none) :
    (mainRun parseJson serializeJson loadOk indexOk agentOk (some s) files).err = true
    ∧ (mainRun parseJson serializeJson loadOk indexOk agentOk (some s) files).events = []
    ∧ (mainRun parseJson serializeJson loadOk indexOk agentOk (some s) files).fsAfter
        = some s := by
  simp [mainRun, h]

theorem malformed_cache_aborts_witness :
    (mainRun (fun _ => none) (fun _ => "S") (fun _ => true) true true
        (some "not json") ["../data/sf_budget_2023_2024.pdf"]).err = true
    ∧ (mainRun (fun _ => none) (fun _ => "S") (fun _ => true) true true
        (some "not json") ["../data/sf_budget_2023_2024.pdf"]).events = []
    ∧ (mainRun (fun _ => none) (fun _ => "S") (fun _ => true) true true
        (some "not json") ["../data/sf_budget_2023_2024.pdf"]).fsAfter
        = some "not json" :=
  malformed_cache_aborts (fun _ => none) (fun _ => "S") (fun _ => true) true true
    "not json" ["../data/sf_budget_2023_2024.pdf"] rfl

/-! ### The run structure of the other four scripts

The non-Qdrant scripts have no cache and no try/catch of any kind inside
their bodies: each is a straight line of awaited external calls.  Three of
them (`src/2_agentic_rag/agent.ts`, `src/3_rag_and_tools/agent.ts` and the
local-model script) wrap the body in `main().catch(console.error)`;
`src/1_agent/agent.mjs` has no wrapper at all and awaits `agent.chat` at
module top level. -/

/-- Outcome of a cache-less script body: its event trace and whether an
error propagated out of it. -/
structure ScriptOutcome where
  events : List Ev
  err : Bool
deriving DecidableEq, Repr

/-- Body of `src/1_agent/agent.mjs`: configuration, callback registration
and tool construction are pure; the one awaited external call is
`agent.chat({message: "Add 101 and 303"})`, whose failure (missing API key,
network error, malformed tool arguments) nothing in the script catches. -/
def agentScriptBody (chatOk : Bool) : ScriptOutcome :=
  ⟨[Ev.agentChat], !chatOk⟩

/-- Body of `main` in the local-model (Ollama, `ReActAgent`) script: the
same single awaited `agent.chat`, uncaught inside `main`. -/
def ollamaScriptBody (chatOk : Bool) : ScriptOutcome :=
  ⟨[Ev.agentChat], !chatOk⟩

/-- Body of `main` in `src/2_agentic_rag/agent.ts`: awaited
`reader.loadData("../data")`, awaited vector-index construction, then the
awaited chat — each may fail, and no step is wrapped in a handler. -/
def agenticRagMain (loadOk indexOk chatOk : Bool) : ScriptOutcome :=
  if loadOk then
    if indexOk then
      ⟨[Ev.parseCall "../data", Ev.indexBuild, Ev.agentChat], !chatOk⟩
    else ⟨[Ev.parseCall "../data", Ev.indexBuild], true⟩
  else ⟨[Ev.parseCall "../data"], true⟩

/-- Body of `main` in `src/3_rag_and_tools/agent.ts`: the same awaited
load, index build and query engine plus the `sumNumbers` tool, then the
three awaited chats (modelled as one chat attempt); again no handler. -/
def ragAndToolsMain (loadOk indexOk chatOk : Bool) : ScriptOutcome :=
  if loadOk then
    if indexOk then
      ⟨[Ev.parseCall "../data", Ev.indexBuild, Ev.agentChat], !chatOk⟩
    else ⟨[Ev.parseCall "../data", Ev.indexBuild], true⟩
  else ⟨[Ev.parseCall "../data"], true⟩

/-- `main().catch(console.error)` as written at the bottom of the Ollama
script, `src/2_agentic_rag/agent.ts` and `src/3_rag_and_tools/agent.ts`: an
error propagating out of `main` is logged and the process ends there. -/
def catchWrapper (out : ScriptOutcome) : List Ev :=
  if out.err then out.events ++ [Ev.logError] else out.events

/-- Modelled from the spec: `src/1_agent/agent.mjs` has no `main` wrapper
and no `catch`, so a failure of its awaited chat leaves the script as an
unhandled top-level-await rejection.  The spec states that such failures
"propagate to the top-level run, which logs the failure and terminates the
process"; for this script that top level is the Node.js runtime, which
prints the error and exits. -/
def nodeTopLevel (out : ScriptOutcome) : List Ev :=
  if out.err then out.events ++ [Ev.logError] else out.events

/-- Claim C6: failures other than the caught cache-file existence check are
handled in none of the five scripts' own logic and propagate to each
script's top level, which logs the failure and the run ends there.  For the
Qdrant script: any propagated error makes `main().catch` log last, and
index-construction, agent-invocation (covering a missing API key, network
errors and malformed tool arguments) and parsing-service failures each
propagate.  For `src/1_agent/agent.mjs` the chat failure propagates out of
the script and the runtime top level logs it; for the Ollama script the
same through `main().catch`; for `src/2_agentic_rag/agent.ts` and
`src/3_rag_and_tools/agent.ts` a failure of the directory load, the index
build or the chat each propagates, and `main().catch` logs whenever the
body fails. -/
theorem unhandled_failures_logged_at_top
    (parseJson : String → Option Cache) (serializeJson : Cache → String)
    (loadOk : String → Bool) (indexOk agentOk : Bool)
    (fs0 : Option String) (files : List String)
    (h : (mainRun parseJson serializeJson loadOk indexOk agentOk fs0 files).err = true) :
    runScript parseJson serializeJson loadOk indexOk agentOk fs0 files
        = (mainRun parseJson serializeJson loadOk indexOk agentOk fs0 files).events
            ++ [Ev.logError]
    ∧ (mainRun parseJson serializeJson (fun _ => true) false agentOk none files).err = true
    ∧ (mainRun parseJson serializeJson (fun _ => true) true false none files).err = true
    ∧ (∀ g rest,
        (mainRun parseJson serializeJson (fun _ => false) indexOk agentOk none
          (g :: rest)).err = true)
    ∧ (agentScriptBody false).err = true
    ∧ nodeTopLevel (agentScriptBody false)
        = (agentScriptBody false).events ++ [Ev.logError]
    ∧ (ollamaScriptBody false).err = true
    ∧ catchWrapper (ollamaScriptBody false)
        = (ollamaScriptBody false).events ++ [Ev.logError]
    ∧ (∀ io co, (agenticRagMain false io co).err = true)
    ∧ (∀ co, (agenticRagMain true false co).err = true)
    ∧ (agenticRagMain true true false).err = true
    ∧ (∀ lo io co, (agenticRagMain lo io co).err = true →
          catchWrapper (agenticRagMain lo io co)
            = (agenticRagMain lo io co).events ++ [Ev.logError])
    ∧ (∀ io co, (ragAndToolsMain false io co).err = true)
    ∧ (∀ co, (ragAndToolsMain true false co).err = true)
    ∧ (ragAndToolsMain true true false).err = true
    ∧ (∀ lo io co, (ragAndToolsMain lo io co).err = true →
          catchWrapper (ragAndToolsMain lo io co)
            = (ragAndToolsMain lo io co).events ++ [Ev.logError]) := by
  refine ⟨?_, ?_, ?_, ?_, rfl, rfl, rfl, rfl, fun io co => rfl, fun co => rfl, rfl,
    ?_, fun io co => rfl, fun co => rfl, rfl, ?_⟩
  · simp [runScript, h]
  · obtain ⟨c1, ps, hp⟩ := processFilesE_allOk [] files
    show (afterCache serializeJson (fun _ => true) false agentOk none [Ev.logNoCache]
        [] files).err = true
    unfold afterCache
    rw [hp]
    rfl
  · obtain ⟨c1, ps, hp⟩ := processFilesE_allOk [] files
    show (afterCache serializeJson (fun _ => true) true false none [Ev.logNoCache]
        [] files).err = true
    unfold afterCache
    rw [hp]
    rfl
  · intro g rest
    show (afterCache serializeJson (fun _ => false) indexOk agentOk none [Ev.logNoCache]
        [] (g :: rest)).err = true
    unfold afterCache
    rw [processFilesE]
    simp [cacheLookup, jsTruthy]
  · intro lo io co h2
    simp [catchWrapper, h2]
  · intro lo io co h2
    simp [catchWrapper, h2]

theorem unhandled_failures_logged_at_top_witness :
    runScript (fun _ => none) (fun _ => "S") (fun _ => true) false true none
        ["../data/sf_budget_2023_2024.pdf"]
        = (mainRun (fun _ => none) (fun _ => "S") (fun _ => true) false true none
            ["../data/sf_budget_2023_2024.pdf"]).events ++ [Ev.logError]
    ∧ (mainRun (fun _ => none) (fun _ => "S") (fun _ => true) false true none
        ["../data/sf_budget_2023_2024.pdf"]).err = true
    ∧ (agentScriptBody false).err = true
    ∧ nodeTopLevel (agentScriptBody false)
        = (agentScriptBody false).events ++ [Ev.logError]
    ∧ catchWrapper (ollamaScriptBody false)
        = (ollamaScriptBody false).events ++ [Ev.logError]
    ∧ (agenticRagMain false true true).err = true
    ∧ catchWrapper (ragAndToolsMain true true false)
        = (ragAndToolsMain true true false).events ++ [Ev.logError] := by
  have H := unhandled_failures_logged_at_top (fun _ => none) (fun _ => "S")
    (fun _ => true) false true none ["../data/sf_budget_2023_2024.pdf"] rfl
  obtain ⟨h1, h2, h3, h4, h5, h6, h7, h8, h9, h10, h11, h12, h13, h14, h15, h16⟩ := H
  exact ⟨h1, h2, h5, h6, h8, h9 true true, h16 true true false h15⟩

/-- Claim C5: every tool descriptor constructed in the repository that
carries a parameter schema lists in `required` only names declared in its
`properties` map. -/
theorem tool_required_subset_of_properties :
    repoToolDescriptors.all requiredSubsetOfProperties = true := by
  decide

/-- Claim C2: `sumNumbers` on the numeric inputs `a = 101, b = 303` returns
the string "404", and on `a = 3200, b = 2012.5` the string "5212.5". -/
theorem sumNumbers_numeric_text :
    sumNumbers (.num 101) (.num 303) = "404"
    ∧ sumNumbers (.num 3200) (.num 2012.5) = "5212.5" := by
  constructor
  · have h : (101 : ℚ) + 303 = 404 := by norm_num
    simp only [sumNumbers, jsAdd, jsToString, h, jsNumToString]
    have hden : (404 : ℚ).den = 1 := by simp
    have hnum : (404 : ℚ).num = 404 := by simp
    rw [hden, hnum]
    decide
  · have hq : (3200 : ℚ) + 2012.5 = q52125 := by
      have h := Rat.num_div_den q52125
      have hn : q52125.num = 10425 := rfl
      have hd : q52125.den = 2 := rfl
      rw [hn, hd] at h
      push_cast at h
      rw [← h]
      norm_num
    simp only [sumNumbers, jsAdd, jsToString, hq]
    decide

/-- Claim C8: `sumNumbers` does not validate that its arguments are numbers:
on two string inputs, JS `+` concatenates, so the result is the
concatenation of the inputs — in particular "101" and "303" give "101303",
not "404". -/
theorem sumNumbers_string_concat :
    (∀ a b : String, sumNumbers (.str a) (.str b) = a ++ b)
    ∧ sumNumbers (.str "101") (.str "303") = "101303" := by
  exact ⟨fun a b => rfl, rfl⟩
